import Mathlib

/-!
Shallow embedding of the place-categorization engine
(`src/librustc/middle/mem_categorization.rs`) and proofs about it.

Conventions of the embedding:
* node ids, spans, def-ids and names are `Nat`;
* the reference-counted pointer `Rc<cmt_>` becomes plain structural nesting;
* `McResult<T> = Result<T, ()>` becomes `Except Fail T`, where `Fail.SoftErr`
  is the source's `Err(())` (soft, recoverable failure) and `Fail.Bug` stands
  for the source's panicking paths (`bug!` / `span_bug!` / `.unwrap()` /
  `.expect(..)`), which abort compilation;
* the external read-only tables (typeck tables, hir map, region maps,
  session features) are bundled into one `Ctx` structure of lookup functions.
-/

namespace MemCat

/-- `hir::Mutability`. -/
inductive Mutability where
  | MutImmutable
  | MutMutable
deriving DecidableEq, Repr

/-- `ty::BorrowKind`. -/
inductive BorrowKind where
  | ImmBorrow
  | UniqueImmBorrow
  | MutBorrow
deriving DecidableEq, Repr

/-- `MutabilityCategory` from the source: Immutable, directly declared as
mutable, or inherited from a mutable owner. -/
inductive MutabilityCategory where
  | McImmutable
  | McDeclared
  | McInherited
deriving DecidableEq, Repr

/-- Modelled from the spec: `ty::BorrowKind::from_mutbl` (external to the
categorization module): a shared borrow for an immutable reference, a mutable
borrow for a mutable one. -/
def BorrowKind.from_mutbl : Mutability → BorrowKind
  | .MutImmutable => .ImmBorrow
  | .MutMutable => .MutBorrow

/-- `MutabilityCategory::from_mutbl`. -/
def MutabilityCategory.from_mutbl : Mutability → MutabilityCategory
  | .MutImmutable => .McImmutable
  | .MutMutable => .McDeclared

/-- `MutabilityCategory::from_borrow_kind`. -/
def MutabilityCategory.from_borrow_kind : BorrowKind → MutabilityCategory
  | .ImmBorrow => .McImmutable
  | .UniqueImmBorrow => .McImmutable
  | .MutBorrow => .McDeclared

/-- `MutabilityCategory::inherit`. -/
def MutabilityCategory.inherit : MutabilityCategory → MutabilityCategory
  | .McImmutable => .McImmutable
  | .McDeclared => .McInherited
  | .McInherited => .McInherited

/-- `MutabilityCategory::is_mutable`. -/
def MutabilityCategory.is_mutable : MutabilityCategory → Bool
  | .McImmutable => false
  | .McInherited => true
  | .McDeclared => true

/-- `MutabilityCategory::is_immutable`. -/
def MutabilityCategory.is_immutable : MutabilityCategory → Bool
  | .McImmutable => true
  | .McDeclared => false
  | .McInherited => false

/-- The fragment of `ty::Region` the categorizer constructs or inspects:
the static region, a lexical scope (`ReScope`), the free environment region of
a closure (`ReFree` with bound region `BrEnv`, carrying the closure's def id),
and region inference variables (for recorded upvar borrows). -/
inductive Region where
  | ReStatic
  | ReScope (scope : Nat)
  | ReFree (closure_def_id : Nat)
  | ReVar (v : Nat)
deriving DecidableEq, Repr

/-- The fragment of `ty::Ty` the categorizer inspects.  `TyBox t` stands for
the `TyAdt` whose def `is_box()`; `TyAdt did` is any other nominal type,
identified by its def id; `TyErr` is the error sentinel `tcx.types.err`;
`TyInfer v` is an unresolved type inference variable. -/
inductive Ty where
  | TyBool
  | TyUint
  | TyRef (r : Region) (m : Mutability) (t : Ty)
  | TyRawPtr (m : Mutability) (t : Ty)
  | TyBox (t : Ty)
  | TyArray (t : Ty) (n : Nat)
  | TySlice (t : Ty)
  | TyTuple (ts : List Ty)
  | TyAdt (did : Nat)
  | TyGenerator
  | TyErr
  | TyInfer (v : Nat)

/-- `ty::TypeAndMut`. -/
structure TypeAndMut where
  ty : Ty
  mutbl : Mutability

/-- Modelled from the spec: `Ty::builtin_deref` (external to the module).  A
type is dereferenceable when it is an owned box, a reference, or — only when
`explicit` is true, as in `cat_deref` — a raw pointer. -/
def Ty.builtin_deref (explicit : Bool) : Ty → Option TypeAndMut
  | .TyBox t => some ⟨t, .MutImmutable⟩
  | .TyRef _ m t => some ⟨t, m⟩
  | .TyRawPtr m t => if explicit then some ⟨t, m⟩ else none
  | _ => none

/-- Modelled from the spec: `Ty::builtin_index` (external to the module).  A
type is indexable by the built-in indexing operation when it is a fixed-length
array or a slice; the result is the element type. -/
def Ty.builtin_index : Ty → Option Ty
  | .TyArray t _ => some t
  | .TySlice t => some t
  | _ => none

mutual
/-- Modelled from the spec: `Ty::references_error` (external flag check):
whether the error sentinel occurs anywhere inside the type. -/
def Ty.references_error : Ty → Bool
  | .TyBool => false
  | .TyUint => false
  | .TyRef _ _ t => t.references_error
  | .TyRawPtr _ t => t.references_error
  | .TyBox t => t.references_error
  | .TyArray t _ => t.references_error
  | .TySlice t => t.references_error
  | .TyTuple ts => Ty.list_references_error ts
  | .TyAdt _ => false
  | .TyGenerator => false
  | .TyErr => true
  | .TyInfer _ => false

/-- Auxiliary fold of `Ty.references_error` over a tuple's component list. -/
def Ty.list_references_error : List Ty → Bool
  | [] => false
  | t :: ts => t.references_error || Ty.list_references_error ts
end

/-- Modelled from the spec: `Ty::is_ty_var` — an unresolved inference
variable at the top level. -/
def Ty.is_ty_var : Ty → Bool
  | .TyInfer _ => true
  | _ => false

/-- `ty::UpvarId`: a captured variable identified by its own node id and the
capturing closure's expression node id. -/
structure UpvarId where
  var_id : Nat
  closure_expr_id : Nat
deriving DecidableEq, Repr

/-- `ty::ClosureKind`: the closure calling convention. -/
inductive ClosureKind where
  | Fn
  | FnMut
  | FnOnce
deriving DecidableEq, Repr

/-- The `Upvar` struct of the source: the capture id plus the closure kind. -/
structure Upvar where
  id : UpvarId
  kind : ClosureKind
deriving DecidableEq, Repr

/-- `Note`: provenance of a cmt synthesized during closure-capture
desugaring. -/
inductive Note where
  | NoteClosureEnv (u : UpvarId)
  | NoteUpvarRef (u : UpvarId)
  | NoteNone
deriving DecidableEq, Repr

/-- `PointerKind`: the flavor of indirection crossed by a dereference. -/
inductive PointerKind where
  | Unique
  | BorrowedPtr (bk : BorrowKind) (r : Region)
  | UnsafePtr (m : Mutability)
  | Implicit (bk : BorrowKind) (r : Region)
deriving DecidableEq, Repr

/-- `MutabilityCategory::from_pointer_kind`. -/
def MutabilityCategory.from_pointer_kind
    (base_mutbl : MutabilityCategory) : PointerKind → MutabilityCategory
  | .Unique => base_mutbl.inherit
  | .BorrowedPtr borrow_kind _ => MutabilityCategory.from_borrow_kind borrow_kind
  | .Implicit borrow_kind _ => MutabilityCategory.from_borrow_kind borrow_kind
  | .UnsafePtr m => MutabilityCategory.from_mutbl m

/-- `FieldName`. -/
inductive FieldName where
  | NamedField (name : Nat)
  | PositionalField (idx : Nat)
deriving DecidableEq, Repr

/-- `InteriorOffsetKind`. -/
inductive InteriorOffsetKind where
  | Index
  | Pattern
deriving DecidableEq, Repr

/-- `InteriorKind`. -/
inductive InteriorKind where
  | InteriorField (f : FieldName)
  | InteriorElement (k : InteriorOffsetKind)
deriving DecidableEq, Repr

mutual
/-- `Categorization`: the recursive category of a place; `Deref`, `Interior`
and `Downcast` own a base cmt. -/
inductive Categorization where
  | Rvalue (r : Region)
  | StaticItem
  | Upvar (u : Upvar)
  | Local (id : Nat)
  | Deref (base : Cmt) (pk : PointerKind)
  | Interior (base : Cmt) (ik : InteriorKind)
  | Downcast (base : Cmt) (variant_did : Nat)

/-- `cmt_`: id and span of the originating node, categorization, mutability
of the place, type of the value at the place, and provenance note. -/
inductive Cmt where
  | mk (id : Nat) (span : Nat) (cat : Categorization)
       (mutbl : MutabilityCategory) (ty : Ty) (note : Note)
end

/-- Field accessor: `cmt.id`. -/
def Cmt.id : Cmt → Nat
  | .mk i _ _ _ _ _ => i

/-- Field accessor: `cmt.span`. -/
def Cmt.span : Cmt → Nat
  | .mk _ s _ _ _ _ => s

/-- Field accessor: `cmt.cat`. -/
def Cmt.cat : Cmt → Categorization
  | .mk _ _ c _ _ _ => c

/-- Field accessor: `cmt.mutbl`. -/
def Cmt.mutbl : Cmt → MutabilityCategory
  | .mk _ _ _ m _ _ => m

/-- Field accessor: `cmt.ty`. -/
def Cmt.ty : Cmt → Ty
  | .mk _ _ _ _ t _ => t

/-- Field accessor: `cmt.note`. -/
def Cmt.note : Cmt → Note
  | .mk _ _ _ _ _ n => n

/-- `AliasableReason`. -/
inductive AliasableReason where
  | AliasableBorrowed
  | AliasableStatic
  | AliasableStaticMut
deriving DecidableEq, Repr

/-- `Aliasability`. -/
inductive Aliasability where
  | FreelyAliasable (reason : AliasableReason)
  | NonAliasable
  | ImmutableUnique (a : Aliasability)
deriving DecidableEq, Repr

/-- `cmt_::guarantor`: strips `Interior`, `Downcast` and `Deref(_, Unique)`
layers to reach the cmt that determines how long the value remains live;
terminal at `Rvalue`, `StaticItem`, `Local`, `Upvar` and derefs of unsafe,
borrowed or implicit pointers. -/
def Cmt.guarantor : Cmt → Cmt
  | c@(.mk _ _ (.Rvalue _) _ _ _) => c
  | c@(.mk _ _ .StaticItem _ _ _) => c
  | c@(.mk _ _ (.Local _) _ _ _) => c
  | c@(.mk _ _ (.Deref _ (.UnsafePtr _)) _ _ _) => c
  | c@(.mk _ _ (.Deref _ (.BorrowedPtr _ _)) _ _ _) => c
  | c@(.mk _ _ (.Deref _ (.Implicit _ _)) _ _ _) => c
  | c@(.mk _ _ (.Upvar _) _ _ _) => c
  | .mk _ _ (.Downcast b _) _ _ _ => b.guarantor
  | .mk _ _ (.Interior b _) _ _ _ => b.guarantor
  | .mk _ _ (.Deref b .Unique) _ _ _ => b.guarantor

/-- `cmt_::freely_aliasable`: whether the place may be aliased by other
live references, and for what reason. -/
def Cmt.freely_aliasable : Cmt → Aliasability
  | .mk _ _ (.Deref b (.BorrowedPtr .MutBorrow _)) _ _ _ => b.freely_aliasable
  | .mk _ _ (.Deref b (.Implicit .MutBorrow _)) _ _ _ => b.freely_aliasable
  | .mk _ _ (.Deref b (.BorrowedPtr .UniqueImmBorrow _)) _ _ _ => b.freely_aliasable
  | .mk _ _ (.Deref b (.Implicit .UniqueImmBorrow _)) _ _ _ => b.freely_aliasable
  | .mk _ _ (.Deref b .Unique) _ _ _ => b.freely_aliasable
  | .mk _ _ (.Downcast b _) _ _ _ => b.freely_aliasable
  | .mk _ _ (.Interior b _) _ _ _ => b.freely_aliasable
  | .mk _ _ (.Rvalue _) _ _ _ => .NonAliasable
  | .mk _ _ (.Local _) _ _ _ => .NonAliasable
  | .mk _ _ (.Upvar _) _ _ _ => .NonAliasable
  | .mk _ _ (.Deref _ (.UnsafePtr _)) _ _ _ => .NonAliasable
  | .mk _ _ .StaticItem m _ _ =>
      if m.is_mutable then .FreelyAliasable .AliasableStaticMut
      else .FreelyAliasable .AliasableStatic
  | .mk _ _ (.Deref _ (.BorrowedPtr .ImmBorrow _)) _ _ _ =>
      .FreelyAliasable .AliasableBorrowed
  | .mk _ _ (.Deref _ (.Implicit .ImmBorrow _)) _ _ _ =>
      .FreelyAliasable .AliasableBorrowed

/-- `cmt_::upvar`: digs down through one or two layers of deref and grabs the
cmt for the upvar if a note indicates there is one; `none` stands for the
source's `bug!` on a noted cmt of unexpected shape. -/
def Cmt.upvar (c : Cmt) : Option Cmt :=
  match c.note with
  | .NoteClosureEnv _ | .NoteUpvarRef _ =>
      match c.cat with
      | .Deref inner _ =>
          match inner.cat with
          | .Deref inner2 _ => some inner2
          | .Upvar _ => some inner
          | _ => none
      | _ => none
  | .NoteNone => none

mutual
/-- `hir::Pat`: a pattern node with id, span and kind. -/
inductive Pat where
  | mk (id : Nat) (span : Nat) (node : PatKind)

/-- `hir::PatKind`, restricted to the payloads the categorizer reads.  The
qualified path of `TupleStruct`/`Struct` patterns is resolved through the
tables keyed by the pattern's node id, so it carries no payload here; the
binding's name and annotation are likewise read from the tables. -/
inductive PatKind where
  | TupleStruct (subpats : List Pat) (ddpos : Option Nat)
  | Struct (field_pats : List FieldPat)
  | Binding (sub : Option Pat)
  | Tuple (subpats : List Pat) (ddpos : Option Nat)
  | Box (sub : Pat)
  | Ref (sub : Pat) (m : Mutability)
  | Slice (before : List Pat) (slice : Option Pat) (after : List Pat)
  | Path
  | Lit
  | Range
  | Wild

/-- One `f: pat` entry of a struct pattern. -/
inductive FieldPat where
  | mk (name : Nat) (pat : Pat)
end

/-- Field accessor: `pat.id`. -/
def Pat.id : Pat → Nat
  | .mk i _ _ => i

/-- Field accessor: `pat.span`. -/
def Pat.span : Pat → Nat
  | .mk _ s _ => s

/-- Field accessor: `pat.node`. -/
def Pat.node : Pat → PatKind
  | .mk _ _ n => n

/-- Field accessor: the field name of a struct-pattern entry. -/
def FieldPat.name : FieldPat → Nat
  | .mk n _ => n

/-- Field accessor: the sub-pattern of a struct-pattern entry. -/
def FieldPat.pat : FieldPat → Pat
  | .mk _ p => p

/-- `hir::UnOp`. -/
inductive UnOp where
  | UnDeref
  | UnNot
  | UnNeg
deriving DecidableEq, Repr

mutual
/-- `hir::Expr`: an expression node with id, span and kind. -/
inductive Expr where
  | mk (id : Nat) (span : Nat) (node : ExprKind)

/-- `hir::Expr_`, restricted to the payloads the categorizer reads.  The
forms from `ExprAddrOf` on are the ones the source's catch-all arm sends
uniformly to `cat_rvalue_node`; their sub-nodes are never visited by the
categorizer, so they carry no payload here. -/
inductive ExprKind where
  | ExprUnary (op : UnOp) (e : Expr)
  | ExprField (base : Expr) (f_name : Nat)
  | ExprTupField (base : Expr) (idx : Nat)
  | ExprIndex (base : Expr) (index : Expr)
  | ExprPath
  | ExprType (e : Expr)
  | ExprAddrOf
  | ExprCall
  | ExprAssign
  | ExprAssignOp
  | ExprClosure
  | ExprRet
  | ExprYield
  | ExprMethodCall
  | ExprCast
  | ExprArray
  | ExprTup
  | ExprIf
  | ExprBinary
  | ExprWhile
  | ExprBlock
  | ExprLoop
  | ExprMatch
  | ExprLit
  | ExprBreak
  | ExprAgain
  | ExprStruct
  | ExprRepeat
  | ExprInlineAsm
  | ExprBox
end

/-- Field accessor: `expr.id`. -/
def Expr.id : Expr → Nat
  | .mk i _ _ => i

/-- Field accessor: `expr.span`. -/
def Expr.span : Expr → Nat
  | .mk _ s _ => s

/-- Field accessor: `expr.node`. -/
def Expr.node : Expr → ExprKind
  | .mk _ _ n => n

/-- `ty::BindingMode`. -/
inductive BindingMode where
  | BindByValue (m : Mutability)
  | BindByReference (m : Mutability)
deriving DecidableEq, Repr

/-- `hir::def::CtorKind`. -/
inductive CtorKind where
  | Fn
  | Const
  | Fictive
deriving DecidableEq, Repr

/-- `hir::def::Def`, restricted to the variants the categorizer matches;
`Mod` stands in for the open set of other definitions, which `cat_def`
rejects as a fatal internal error. -/
inductive Def where
  | StructCtor (did : Nat) (ck : CtorKind)
  | VariantCtor (did : Nat) (ck : CtorKind)
  | Variant (did : Nat)
  | Const (did : Nat)
  | AssociatedConst (did : Nat)
  | Fn (did : Nat)
  | Method (did : Nat)
  | Static (did : Nat) (mutbl : Bool)
  | Upvar (did : Nat) (index : Nat) (fn_node_id : Nat)
  | Local (did : Nat)
  | Err
  | Mod (did : Nat)
deriving DecidableEq, Repr

/-- The hir-map entries `MutabilityCategory::from_local` distinguishes:
a local binding's pattern, or anything else. -/
inductive HirNode where
  | NodeLocal (p : Pat)
  | NodeOther

/-- `ty::adjustment::AutoBorrowMutability`-free rendering of an overloaded
deref step: the region and mutability of the reference the `Deref` impl
returns. -/
structure OverloadedDeref where
  region : Region
  mutbl : Mutability

/-- `ty::adjustment::Adjust`, as matched by `cat_expr_adjusted_with`:
a (possibly overloaded) deref, or any of the coercion kinds that collapse
the result to an rvalue. -/
inductive AdjustKind where
  | AdjDeref (overloaded : Option OverloadedDeref)
  | NeverToAny
  | ReifyFnPointer
  | UnsafeFnPointer
  | ClosureFnPointer
  | MutToConstPointer
  | Borrow
  | Unsize

/-- `ty::adjustment::Adjustment`: the step kind plus its target type. -/
structure Adjustment where
  kind : AdjustKind
  target : Ty

/-- `ty::UpvarCapture`: how a variable is captured by a closure. -/
inductive UpvarCapture where
  | ByValue
  | ByRef (kind : BorrowKind) (region : Region)

/-- The live inference handle (`InferCtxt`) at its interface: resolution of
not-yet-finalized type variables and the taint query. -/
structure Infcx where
  resolve : Ty → Ty
  tainted : Bool

/-- Failure of a categorization function: `SoftErr` is the source's
`Err(())` (recoverable, no new diagnostic); `Bug` is a panicking path
(`bug!`, `span_bug!`, `unwrap`, `expect`), which aborts compilation. -/
inductive Fail where
  | SoftErr
  | Bug
deriving DecidableEq, Repr

/-- `McResult<T>`, with panics made explicit. -/
abbrev McResult (α : Type) : Type := Except Fail α

/-- The categorization context: `MemCategorizationContext` together with the
read-only tables it consults (`ty::TypeckTables`, the hir map, `RegionMaps`,
`tcx.rvalue_promotable_to_static`, the session feature toggle, and the
optional inference handle). -/
structure Ctx where
  node_types : Nat → Option Ty
  expr_adjustments : Nat → List Adjustment
  is_method_call : Nat → Bool
  pat_binding_modes : Nat → Option BindingMode
  qpath_def : Nat → Def
  hir_get : Nat → Option HirNode
  as_local_node_id : Nat → Option Nat
  local_def_id : Nat → Nat
  closure_kinds : Nat → Option ClosureKind
  upvar_capture : UpvarId → UpvarCapture
  rvalue_promotable_to_static : Nat → Option Bool
  rvalue_static_promotion : Bool
  temporary_scope_map : Nat → Option Nat
  parent_def_id : Nat → Option Nat
  adt_is_univariant : Nat → Bool
  variant_fields_len : Nat → Nat
  struct_fields_len : Nat → Nat
  infcx : Option Infcx

/-- `MutabilityCategory::from_local`: looks the binding up in the hir map;
a `BindByValue(MutMutable)` binding mode yields `McDeclared`, every other
binding mode yields `McImmutable`. -/
def MutabilityCategory.from_local (ctx : Ctx) (id : Nat) : McResult MutabilityCategory :=
  match ctx.hir_get id with
  | some (.NodeLocal p) =>
      match p.node with
      | .Binding _ =>
          match ctx.pat_binding_modes p.id with
          | some bm =>
              .ok (if bm = BindingMode.BindByValue .MutMutable
                   then .McDeclared else .McImmutable)
          | none => .error .Bug
      | _ => .error .Bug
  | _ => .error .Bug

/-- `MemCategorizationContext::resolve_type_vars_if_possible`. -/
def resolve_type_vars_if_possible (ctx : Ctx) (t : Ty) : Ty :=
  match ctx.infcx with
  | some infcx => infcx.resolve t
  | none => t

/-- `MemCategorizationContext::is_tainted_by_errors`. -/
def is_tainted_by_errors (ctx : Ctx) : Bool :=
  match ctx.infcx with
  | some infcx => infcx.tainted
  | none => false

/-- `MemCategorizationContext::resolve_type_vars_or_error`: an error type or
unresolved type variable is a soft failure; a missing type is a soft failure
when inference is tainted by errors and a fatal bug otherwise. -/
def resolve_type_vars_or_error (ctx : Ctx) (t : Option Ty) : McResult Ty :=
  match t with
  | some ty =>
      let ty := resolve_type_vars_if_possible ctx ty
      if ty.references_error || ty.is_ty_var then .error .SoftErr else .ok ty
  | none => if is_tainted_by_errors ctx then .error .SoftErr else .error .Bug

/-- `MemCategorizationContext::node_ty`. -/
def node_ty (ctx : Ctx) (id : Nat) : McResult Ty :=
  resolve_type_vars_or_error ctx (ctx.node_types id)

/-- `MemCategorizationContext::expr_ty`. -/
def expr_ty (ctx : Ctx) (expr : Expr) : McResult Ty :=
  resolve_type_vars_or_error ctx (ctx.node_types expr.id)

/-- `tables.expr_ty_adjusted_opt`: the target of the last recorded
adjustment, or the expression's own type when there is none. -/
def expr_ty_adjusted_opt (ctx : Ctx) (expr : Expr) : Option Ty :=
  match (ctx.expr_adjustments expr.id).getLast? with
  | some a => some a.target
  | none => ctx.node_types expr.id

/-- `MemCategorizationContext::expr_ty_adjusted`. -/
def expr_ty_adjusted (ctx : Ctx) (expr : Expr) : McResult Ty :=
  resolve_type_vars_or_error ctx (expr_ty_adjusted_opt ctx expr)

/-- `MemCategorizationContext::pat_ty`: the node's type, except that a
by-reference binding peels one reference level off (soft failure when the
bound type is not dereferenceable). -/
def pat_ty (ctx : Ctx) (pat : Pat) : McResult Ty :=
  match node_ty ctx pat.id with
  | .error e => .error e
  | .ok base_ty =>
      match pat.node with
      | .Binding _ =>
          match ctx.pat_binding_modes pat.id with
          | some bm =>
              match bm with
              | .BindByReference _ =>
                  match base_ty.builtin_deref false with
                  | some t => .ok t.ty
                  | none => .error .SoftErr
              | _ => .ok base_ty
          | none => .error .Bug
      | _ => .ok base_ty

/-- `MemCategorizationContext::temporary_scope`: the region of the rvalue
temporary for node `id`; `'static` when the scope map has no entry. -/
def temporary_scope (ctx : Ctx) (id : Nat) : Region :=
  match ctx.temporary_scope_map id with
  | some scope => .ReScope scope
  | none => .ReStatic

/-- `MemCategorizationContext::cat_rvalue`. -/
def cat_rvalue (cmt_id : Nat) (span : Nat) (temp_scope : Region) (expr_ty : Ty) : Cmt :=
  .mk cmt_id span (.Rvalue temp_scope) .McDeclared expr_ty .NoteNone

/-- `MemCategorizationContext::cat_rvalue_node`: promotable when the type is
a zero-length fixed array, otherwise when flagged promotable and the
`rvalue_static_promotion` feature is on; a promotable rvalue lives for the
static region, otherwise for its temporary scope. -/
def cat_rvalue_node (ctx : Ctx) (id : Nat) (span : Nat) (expr_ty : Ty) : Cmt :=
  let promotable := (ctx.rvalue_promotable_to_static id).getD false
  let promotable :=
    match expr_ty with
    | .TyArray _ 0 => true
    | _ => promotable && ctx.rvalue_static_promotion
  let re := if promotable then Region.ReStatic else temporary_scope ctx id
  cat_rvalue id span re expr_ty

/-- `MemCategorizationContext::cat_field`. -/
def cat_field (node_id node_span : Nat) (base_cmt : Cmt) (f_name : Nat) (f_ty : Ty) : Cmt :=
  .mk node_id node_span (.Interior base_cmt (.InteriorField (.NamedField f_name)))
     base_cmt.mutbl.inherit f_ty .NoteNone

/-- `MemCategorizationContext::cat_tup_field`. -/
def cat_tup_field (node_id node_span : Nat) (base_cmt : Cmt) (f_idx : Nat) (f_ty : Ty) : Cmt :=
  .mk node_id node_span (.Interior base_cmt (.InteriorField (.PositionalField f_idx)))
     base_cmt.mutbl.inherit f_ty .NoteNone

/-- `MemCategorizationContext::cat_imm_interior`. -/
def cat_imm_interior (node_id node_span : Nat) (base_cmt : Cmt) (interior_ty : Ty)
    (interior : InteriorKind) : Cmt :=
  .mk node_id node_span (.Interior base_cmt interior)
     base_cmt.mutbl.inherit interior_ty .NoteNone

/-- `MemCategorizationContext::cat_index`: wraps the base cmt in an
element-offset `Interior`. -/
def cat_index (elt_id elt_span : Nat) (base_cmt : Cmt) (element_ty : Ty)
    (context : InteriorOffsetKind) : McResult Cmt :=
  let interior_elem := InteriorKind.InteriorElement context
  .ok (cat_imm_interior elt_id elt_span base_cmt element_ty interior_elem)

/-- `MemCategorizationContext::cat_downcast_if_needed`: wraps in `Downcast`
unless the enum is univariant. -/
def cat_downcast_if_needed (ctx : Ctx) (node_id node_span : Nat) (base_cmt : Cmt)
    (variant_did : Nat) : McResult Cmt :=
  match ctx.parent_def_id variant_did with
  | none => .error .Bug
  | some base_did =>
      if ctx.adt_is_univariant base_did then .ok base_cmt
      else
        .ok (.mk node_id node_span (.Downcast base_cmt variant_did)
               base_cmt.mutbl.inherit base_cmt.ty .NoteNone)

/-- `MemCategorizationContext::cat_deref`: soft failure on a
non-dereferenceable base type; otherwise a `Deref` whose pointer kind is
derived from the base's type and whose mutability comes from
`from_pointer_kind`. -/
def cat_deref (node_id node_span : Nat) (base_cmt : Cmt) (implicit : Bool) : McResult Cmt :=
  match base_cmt.ty.builtin_deref true with
  | none => .error .SoftErr
  | some mt =>
      let deref_ty := mt.ty
      let ptr : McResult PointerKind :=
        match base_cmt.ty with
        | .TyBox _ => .ok .Unique
        | .TyRawPtr m _ => .ok (.UnsafePtr m)
        | .TyRef r m _ =>
            let bk := BorrowKind.from_mutbl m
            .ok (if implicit then .Implicit bk r else .BorrowedPtr bk r)
        | _ => .error .Bug
      match ptr with
      | .error e => .error e
      | .ok ptr =>
          .ok (.mk node_id node_span (.Deref base_cmt ptr)
                 (MutabilityCategory.from_pointer_kind base_cmt.mutbl ptr)
                 deref_ty .NoteNone)

/-- `MemCategorizationContext::cat_overloaded_lvalue`: reconstructs the
reference the overloaded deref/index returns, categorizes it as a synthetic
rvalue, then derefs it; fatal when the adjusted receiver is not a
reference. -/
def cat_overloaded_lvalue (ctx : Ctx) (expr : Expr) (base : Expr)
    (implicit : Bool) : McResult Cmt :=
  match expr_ty ctx expr with
  | .error e => .error e
  | .ok lvalue_ty =>
      match expr_ty_adjusted ctx base with
      | .error e => .error e
      | .ok base_ty =>
          match base_ty with
          | .TyRef region mutbl _ =>
              let ref_ty := Ty.TyRef region mutbl lvalue_ty
              let base_cmt := cat_rvalue_node ctx expr.id expr.span ref_ty
              cat_deref expr.id expr.span base_cmt implicit
          | _ => .error .Bug

/-- `MemCategorizationContext::cat_expr_adjusted_with`: a deref adjustment
derefs the previous cmt (or a synthetic rvalue reference when the deref is
overloaded); every other adjustment kind collapses the result to a fresh
rvalue at the target type.  The lazily-evaluated `previous` closure of the
source is passed here as an already-computed value, which is equivalent
because the embedding is pure. -/
def cat_expr_adjusted_with (ctx : Ctx) (expr : Expr) (previous : McResult Cmt)
    (adjustment : Adjustment) : McResult Cmt :=
  let target := resolve_type_vars_if_possible ctx adjustment.target
  match adjustment.kind with
  | .AdjDeref overloaded =>
      let base : McResult Cmt :=
        match overloaded with
        | some deref =>
            .ok (cat_rvalue_node ctx expr.id expr.span
                   (.TyRef deref.region deref.mutbl target))
        | none => previous
      match base with
      | .error e => .error e
      | .ok base => cat_deref expr.id expr.span base false
  | _ => .ok (cat_rvalue_node ctx expr.id expr.span target)

/-- Replaces a cmt's mutability and type, keeping every other field: the
struct-update `cmt_ { mutbl: .., ty: .., ..cmt_result }` of `env_deref`. -/
def Cmt.with_mutbl_ty (c : Cmt) (m : MutabilityCategory) (t : Ty) : Cmt :=
  match c with
  | .mk i s cat _ _ n => .mk i s cat m t n

/-- `MemCategorizationContext::env_deref`: wraps the upvar cmt in a deref
through the closure-environment pointer.  The wrapped inner cmt is rewritten
to be immutable with the error type; the deref's own mutability comes from
the environment borrow kind but is forced to immutable when the variable was
declared immutable (issue 18335).  Tagged `NoteClosureEnv`. -/
def env_deref (ctx : Ctx) (id span : Nat) (upvar_id : UpvarId)
    (upvar_mutbl : MutabilityCategory) (env_borrow_kind : BorrowKind)
    (cmt_result : Cmt) : Cmt :=
  let env_region := Region.ReFree (ctx.local_def_id upvar_id.closure_expr_id)
  let env_ptr := PointerKind.BorrowedPtr env_borrow_kind env_region
  let var_ty := cmt_result.ty
  let cmt_result := cmt_result.with_mutbl_ty .McImmutable .TyErr
  let deref_mutbl := MutabilityCategory.from_borrow_kind env_borrow_kind
  let deref_mutbl :=
    match upvar_mutbl with
    | .McImmutable => MutabilityCategory.McImmutable
    | .McDeclared | .McInherited => deref_mutbl
  .mk id span (.Deref cmt_result env_ptr) deref_mutbl var_ty (.NoteClosureEnv upvar_id)

/-- `MemCategorizationContext::cat_upvar`: the three-layer closure-capture
translation — the base `Upvar` cmt, an environment deref for `Fn`/`FnMut`
closures, and a final deref for by-reference captures. -/
def cat_upvar (ctx : Ctx) (id span : Nat) (var_id : Nat) (fn_node_id : Nat) : McResult Cmt :=
  let kind : McResult ClosureKind :=
    match ctx.closure_kinds fn_node_id with
    | some kind => .ok kind
    | none =>
        match node_ty ctx fn_node_id with
        | .error e => .error e
        | .ok ty =>
            match ty with
            | .TyGenerator => .ok .FnOnce
            | _ => .error .Bug
  match kind with
  | .error e => .error e
  | .ok kind =>
      let upvar_id : UpvarId := ⟨var_id, fn_node_id⟩
      match node_ty ctx var_id with
      | .error e => .error e
      | .ok var_ty =>
          match MutabilityCategory.from_local ctx var_id with
          | .error e => .error e
          | .ok var_mutbl =>
              let cmt_result : Cmt :=
                .mk id span (.Upvar ⟨upvar_id, kind⟩) var_mutbl var_ty .NoteNone
              let cmt_result :=
                match kind with
                | .FnOnce => cmt_result
                | .FnMut => env_deref ctx id span upvar_id var_mutbl .MutBorrow cmt_result
                | .Fn => env_deref ctx id span upvar_id var_mutbl .ImmBorrow cmt_result
              let cmt_result :=
                match ctx.upvar_capture upvar_id with
                | .ByValue => cmt_result
                | .ByRef bk region =>
                    Cmt.mk id span (.Deref cmt_result (.BorrowedPtr bk region))
                      (MutabilityCategory.from_borrow_kind bk) var_ty
                      (.NoteUpvarRef upvar_id)
              .ok cmt_result

/-- `MemCategorizationContext::cat_def`: constructors, consts, functions and
methods are rvalues; statics are `StaticItem` with their declared mutability;
upvars delegate to `cat_upvar`; locals are `Local` with mutability from the
binding pattern; anything else is a fatal internal error. -/
def cat_def (ctx : Ctx) (id span : Nat) (expr_ty : Ty) (d : Def) : McResult Cmt :=
  match d with
  | .StructCtor _ _ | .VariantCtor _ _ | .Const _ | .AssociatedConst _
  | .Fn _ | .Method _ =>
      .ok (cat_rvalue_node ctx id span expr_ty)
  | .Static _ mutbl =>
      .ok (.mk id span .StaticItem
             (if mutbl then .McDeclared else .McImmutable) expr_ty .NoteNone)
  | .Upvar def_id _ fn_node_id =>
      match ctx.as_local_node_id def_id with
      | some var_id => cat_upvar ctx id span var_id fn_node_id
      | none => .error .Bug
  | .Local def_id =>
      match ctx.as_local_node_id def_id with
      | some vid =>
          match MutabilityCategory.from_local ctx vid with
          | .error e => .error e
          | .ok m => .ok (.mk id span (.Local vid) m expr_ty .NoteNone)
      | none => .error .Bug
  | _ => .error .Bug

mutual
/-- `MemCategorizationContext::cat_expr`: applies the expression's recorded
adjustments outermost-in over the unadjusted categorization. -/
def cat_expr (ctx : Ctx) (expr : Expr) : McResult Cmt :=
  cat_expr_rev ctx expr (ctx.expr_adjustments expr.id).reverse
termination_by (sizeOf expr, (ctx.expr_adjustments expr.id).reverse.length + 2)

/-- The `helper` closure of `cat_expr`, with the adjustment list reversed:
the source peels the *last* adjustment with `split_last` and recurses on the
prefix, which is the same recursion as peeling the head of the reversed
list. -/
def cat_expr_rev (ctx : Ctx) (expr : Expr) (adjustments : List Adjustment) : McResult Cmt :=
  match adjustments with
  | [] => cat_expr_unadjusted ctx expr
  | adjustment :: rest =>
      cat_expr_adjusted_with ctx expr (cat_expr_rev ctx expr rest) adjustment
termination_by (sizeOf expr, adjustments.length + 1)

/-- `MemCategorizationContext::cat_expr_unadjusted`: the expression-form
dispatch of the categorizer. -/
def cat_expr_unadjusted (ctx : Ctx) (expr : Expr) : McResult Cmt :=
  match expr_ty ctx expr with
  | .error e => .error e
  | .ok ety =>
      match expr with
      | .mk eid esp (.ExprUnary op e_base) =>
          match op with
          | .UnDeref =>
              if ctx.is_method_call eid then
                cat_overloaded_lvalue ctx expr e_base false
              else
                match cat_expr ctx e_base with
                | .error e => .error e
                | .ok base_cmt => cat_deref eid esp base_cmt false
          | _ => .ok (cat_rvalue_node ctx eid esp ety)
      | .mk eid esp (.ExprField base f_name) =>
          match cat_expr ctx base with
          | .error e => .error e
          | .ok base_cmt => .ok (cat_field eid esp base_cmt f_name ety)
      | .mk eid esp (.ExprTupField base idx) =>
          match cat_expr ctx base with
          | .error e => .error e
          | .ok base_cmt => .ok (cat_tup_field eid esp base_cmt idx ety)
      | .mk eid esp (.ExprIndex base _) =>
          if ctx.is_method_call eid then
            cat_overloaded_lvalue ctx expr base true
          else
            match cat_expr ctx base with
            | .error e => .error e
            | .ok base_cmt =>
                cat_index eid esp base_cmt ety .Index
      | .mk eid esp .ExprPath =>
          cat_def ctx eid esp ety (ctx.qpath_def eid)
      | .mk _ _ (.ExprType e) => cat_expr ctx e
      | .mk eid esp _ => .ok (cat_rvalue_node ctx eid esp ety)
termination_by (sizeOf expr, 0)
end

/-- The `helper` closure of `cat_expr` in its original orientation: the
categorization of `expr` under the given prefix of its adjustment list. -/
def cat_expr_helper (ctx : Ctx) (expr : Expr) (adjustments : List Adjustment) : McResult Cmt :=
  cat_expr_rev ctx expr adjustments.reverse

/-- Prepends the `op(cmt, pat)` visit of `cat_pattern_` to the visits of the
sub-patterns, propagating failure. -/
def visit_result (cmt : Cmt) (pat : Pat) (r : McResult (List (Cmt × Pat))) :
    McResult (List (Cmt × Pat)) :=
  match r with
  | .error e => .error e
  | .ok vs => .ok ((cmt, pat) :: vs)

mutual
/-- `MemCategorizationContext::cat_pattern_` (and `cat_pattern`): walks the
pattern against the cmt of the matched value.  The `op` visitor callback of
the source is rendered by returning the list of visited `(cmt, pattern)`
pairs in visit order (the root visit happens first, so it is prepended to
the sub-pattern visits); `Err` propagation is unchanged. -/
def cat_pattern_ (ctx : Ctx) (cmt : Cmt) (pat : Pat) : McResult (List (Cmt × Pat)) :=
  visit_result cmt pat
    (match pat with
    | .mk pid psp (.TupleStruct subpats ddpos) =>
        let dcl : McResult (Cmt × Nat) :=
          match ctx.qpath_def pid with
          | .Err => .error .SoftErr
          | .VariantCtor def_id .Fn =>
              match ctx.parent_def_id def_id with
              | none => .error .Bug
              | some _enum_def =>
                  match cat_downcast_if_needed ctx pid psp cmt def_id with
                  | .error e => .error e
                  | .ok c => .ok (c, ctx.variant_fields_len def_id)
          | .StructCtor _ .Fn =>
              match pat_ty ctx pat with
              | .error e => .error e
              | .ok t =>
                  match t with
                  | .TyAdt did => .ok (cmt, ctx.struct_fields_len did)
                  | _ => .error .Bug
          | _ => .error .Bug
        match dcl with
        | .error e => .error e
        | .ok (cmt, expected_len) =>
            cat_pattern_pos ctx pid psp cmt (expected_len - subpats.length) ddpos 0 subpats
    | .mk pid psp (.Struct field_pats) =>
        let dcl : McResult Cmt :=
          match ctx.qpath_def pid with
          | .Err => .error .SoftErr
          | .Variant variant_did => cat_downcast_if_needed ctx pid psp cmt variant_did
          | .VariantCtor variant_did _ => cat_downcast_if_needed ctx pid psp cmt variant_did
          | _ => .ok cmt
        match dcl with
        | .error e => .error e
        | .ok cmt => cat_pattern_fields ctx pid psp cmt field_pats
    | .mk _ _ (.Binding (some subpat)) => cat_pattern_ ctx cmt subpat
    | .mk pid psp (.Tuple subpats ddpos) =>
        match pat_ty ctx pat with
        | .error e => .error e
        | .ok t =>
            match t with
            | .TyTuple tys =>
                cat_pattern_pos ctx pid psp cmt (tys.length - subpats.length) ddpos 0 subpats
            | _ => .error .Bug
    | .mk pid psp (.Box subpat) =>
        match cat_deref pid psp cmt false with
        | .error e => .error e
        | .ok subcmt => cat_pattern_ ctx subcmt subpat
    | .mk pid psp (.Ref subpat _) =>
        match cat_deref pid psp cmt false with
        | .error e => .error e
        | .ok subcmt => cat_pattern_ ctx subcmt subpat
    | .mk pid psp (.Slice before slice after) =>
        match cmt.ty.builtin_index with
        | none => .error .SoftErr
        | some element_ty =>
            match cat_index pid psp cmt element_ty .Pattern with
            | .error e => .error e
            | .ok elt_cmt =>
                match cat_pattern_list ctx elt_cmt before with
                | .error e => .error e
                | .ok vs1 =>
                    match cat_pattern_opt ctx elt_cmt slice with
                    | .error e => .error e
                    | .ok vs2 =>
                        match cat_pattern_list ctx elt_cmt after with
                        | .error e => .error e
                        | .ok vs3 => .ok (vs1 ++ vs2 ++ vs3)
    | .mk _ _ .Path => .ok []
    | .mk _ _ (.Binding none) => .ok []
    | .mk _ _ .Lit => .ok []
    | .mk _ _ .Range => .ok []
    | .mk _ _ .Wild => .ok [])

/-- The positional-field loop of the tuple-struct and tuple branches.
Modelled from the spec: `enumerate_and_adjust(expected_len, ddpos)` (from
`hir::pat_util`, outside the categorization module) maps sub-patterns before
the `..` gap to indices from 0 and sub-patterns at or beyond the gap
position to indices counted from the end; realized here with the
precomputed gap `expected_len - actual_len` and iterator index `i`. -/
def cat_pattern_pos (ctx : Ctx) (pid psp : Nat) (cmt : Cmt) (gap : Nat)
    (ddpos : Option Nat) (i : Nat) (pats : List Pat) : McResult (List (Cmt × Pat)) :=
  match pats with
  | [] => .ok []
  | subpat :: rest =>
      let idx : Nat :=
        match ddpos with
        | some pos => if i < pos then i else i + gap
        | none => i
      match pat_ty ctx subpat with
      | .error e => .error e
      | .ok subpat_ty =>
          let subcmt := cat_imm_interior pid psp cmt subpat_ty
            (.InteriorField (.PositionalField idx))
          match cat_pattern_ ctx subcmt subpat with
          | .error e => .error e
          | .ok vs =>
              match cat_pattern_pos ctx pid psp cmt gap ddpos (i + 1) rest with
              | .error e => .error e
              | .ok vs2 => .ok (vs ++ vs2)

/-- The named-field loop of the struct-pattern branch. -/
def cat_pattern_fields (ctx : Ctx) (pid psp : Nat) (cmt : Cmt)
    (field_pats : List FieldPat) : McResult (List (Cmt × Pat)) :=
  match field_pats with
  | [] => .ok []
  | .mk fname fpat :: rest =>
      match pat_ty ctx fpat with
      | .error e => .error e
      | .ok field_ty =>
          let cmt_field := cat_field pid psp cmt fname field_ty
          match cat_pattern_ ctx cmt_field fpat with
          | .error e => .error e
          | .ok vs =>
              match cat_pattern_fields ctx pid psp cmt rest with
              | .error e => .error e
              | .ok vs2 => .ok (vs ++ vs2)

/-- The optional middle sub-pattern of a slice pattern, categorized against
the shared element cmt. -/
def cat_pattern_opt (ctx : Ctx) (elt_cmt : Cmt) (slice : Option Pat) :
    McResult (List (Cmt × Pat)) :=
  match slice with
  | some slice_pat => cat_pattern_ ctx elt_cmt slice_pat
  | none => .ok []

/-- The before/after loops of the slice-pattern branch: every sub-pattern is
categorized against the same shared element cmt. -/
def cat_pattern_list (ctx : Ctx) (elt_cmt : Cmt) (pats : List Pat) :
    McResult (List (Cmt × Pat)) :=
  match pats with
  | [] => .ok []
  | p :: rest =>
      match cat_pattern_ ctx elt_cmt p with
      | .error e => .error e
      | .ok vs =>
          match cat_pattern_list ctx elt_cmt rest with
          | .error e => .error e
          | .ok vs2 => .ok (vs ++ vs2)
end

/-- `MemCategorizationContext::cat_pattern`, the public entry point. -/
def cat_pattern (ctx : Ctx) (cmt : Cmt) (pat : Pat) : McResult (List (Cmt × Pat)) :=
  cat_pattern_ ctx cmt pat

/-- The output shape the spec asserts for non-overloaded indexing (written
from the claim's words, for comparison with the code): an element-offset
`Interior` layer directly over an explicit `Deref` layer. -/
def index_place_shape : Cmt → Bool
  | .mk _ _ (.Interior b (.InteriorElement .Index)) _ _ _ =>
      match b with
      | .mk _ _ (.Deref _ _) _ _ _ => true
      | _ => false
  | _ => false

/-- Concrete context for the C1 counterexample: the program `p.f[i]` where
`p : &S` (node 22, local 2) and `S` is a dynamically-sized struct whose last
field `f` (name 5) is a slice; node 21 is `p.f : [uint]` and node 20 is the
index expression, of type `uint`.  The only recorded adjustment is the
auto-deref of `p` for the field access. -/
def ctxC1 : Ctx where
  node_types := fun i =>
    if i = 20 then some .TyUint
    else if i = 21 then some (.TySlice .TyUint)
    else if i = 22 then some (.TyRef (.ReVar 0) .MutImmutable (.TyAdt 7))
    else none
  expr_adjustments := fun i =>
    if i = 22 then [⟨.AdjDeref none, .TyAdt 7⟩] else []
  is_method_call := fun _ => false
  pat_binding_modes := fun i => if i = 2 then some (.BindByValue .MutImmutable) else none
  qpath_def := fun i => if i = 22 then .Local 2 else .Err
  hir_get := fun i => if i = 2 then some (.NodeLocal (.mk 2 0 (.Binding none))) else none
  as_local_node_id := fun i => some i
  local_def_id := fun i => i
  closure_kinds := fun _ => none
  upvar_capture := fun _ => .ByValue
  rvalue_promotable_to_static := fun _ => none
  rvalue_static_promotion := false
  temporary_scope_map := fun _ => none
  parent_def_id := fun _ => none
  adt_is_univariant := fun _ => false
  variant_fields_len := fun _ => 0
  struct_fields_len := fun _ => 0
  infcx := none

/-- Concrete context for the C2 counterexample: local 5 is bound by a
`ref mut` pattern (`BindByReference(MutMutable)`). -/
def ctxC2 : Ctx where
  node_types := fun _ => none
  expr_adjustments := fun _ => []
  is_method_call := fun _ => false
  pat_binding_modes := fun i => if i = 5 then some (.BindByReference .MutMutable) else none
  qpath_def := fun _ => .Err
  hir_get := fun i => if i = 5 then some (.NodeLocal (.mk 5 0 (.Binding none))) else none
  as_local_node_id := fun i => some i
  local_def_id := fun i => i
  closure_kinds := fun _ => none
  upvar_capture := fun _ => .ByValue
  rvalue_promotable_to_static := fun _ => none
  rvalue_static_promotion := false
  temporary_scope_map := fun _ => none
  parent_def_id := fun _ => none
  adt_is_univariant := fun _ => false
  variant_fields_len := fun _ => 0
  struct_fields_len := fun _ => 0
  infcx := none

/-- Concrete context for the C3 counterexample: closure node 1 is an `Fn`
closure capturing variable 2, which is declared mutable (`let mut`), by
value; the variable's own type is `bool`. -/
def ctxC3 : Ctx where
  node_types := fun i => if i = 2 then some .TyBool else none
  expr_adjustments := fun _ => []
  is_method_call := fun _ => false
  pat_binding_modes := fun i => if i = 2 then some (.BindByValue .MutMutable) else none
  qpath_def := fun _ => .Err
  hir_get := fun i => if i = 2 then some (.NodeLocal (.mk 2 0 (.Binding none))) else none
  as_local_node_id := fun i => some i
  local_def_id := fun i => i
  closure_kinds := fun i => if i = 1 then some .Fn else none
  upvar_capture := fun _ => .ByValue
  rvalue_promotable_to_static := fun _ => none
  rvalue_static_promotion := false
  temporary_scope_map := fun _ => none
  parent_def_id := fun _ => none
  adt_is_univariant := fun _ => false
  variant_fields_len := fun _ => 0
  struct_fields_len := fun _ => 0
  infcx := none

/-- Concrete context for the C4 counterexample: closure node 1 is an `FnMut`
closure capturing variable 2, which is declared immutable, by value. -/
def ctxC4 : Ctx where
  node_types := fun i => if i = 2 then some .TyBool else none
  expr_adjustments := fun _ => []
  is_method_call := fun _ => false
  pat_binding_modes := fun i => if i = 2 then some (.BindByValue .MutImmutable) else none
  qpath_def := fun _ => .Err
  hir_get := fun i => if i = 2 then some (.NodeLocal (.mk 2 0 (.Binding none))) else none
  as_local_node_id := fun i => some i
  local_def_id := fun i => i
  closure_kinds := fun i => if i = 1 then some .FnMut else none
  upvar_capture := fun _ => .ByValue
  rvalue_promotable_to_static := fun _ => none
  rvalue_static_promotion := false
  temporary_scope_map := fun _ => none
  parent_def_id := fun _ => none
  adt_is_univariant := fun _ => false
  variant_fields_len := fun _ => 0
  struct_fields_len := fun _ => 0
  infcx := none

/-- Concrete context witnessing the Downcast conjunct of C4: variant 1
belongs to the multi-variant enum 0. -/
def ctxW4 : Ctx where
  node_types := fun _ => none
  expr_adjustments := fun _ => []
  is_method_call := fun _ => false
  pat_binding_modes := fun _ => none
  qpath_def := fun _ => .Err
  hir_get := fun _ => none
  as_local_node_id := fun i => some i
  local_def_id := fun i => i
  closure_kinds := fun _ => none
  upvar_capture := fun _ => .ByValue
  rvalue_promotable_to_static := fun _ => none
  rvalue_static_promotion := false
  temporary_scope_map := fun _ => none
  parent_def_id := fun i => if i = 1 then some 0 else none
  adt_is_univariant := fun _ => false
  variant_fields_len := fun _ => 0
  struct_fields_len := fun _ => 0
  infcx := none

/-- Concrete context for the C8 counterexample: node 7 is a literal
expression whose recorded type is the error sentinel. -/
def ctxC8 : Ctx where
  node_types := fun i => if i = 7 then some .TyErr else none
  expr_adjustments := fun _ => []
  is_method_call := fun _ => false
  pat_binding_modes := fun _ => none
  qpath_def := fun _ => .Err
  hir_get := fun _ => none
  as_local_node_id := fun i => some i
  local_def_id := fun i => i
  closure_kinds := fun _ => none
  upvar_capture := fun _ => .ByValue
  rvalue_promotable_to_static := fun _ => none
  rvalue_static_promotion := false
  temporary_scope_map := fun _ => none
  parent_def_id := fun _ => none
  adt_is_univariant := fun _ => false
  variant_fields_len := fun _ => 0
  struct_fields_len := fun _ => 0
  infcx := none

/-- Concrete context witnessing C5: closure 3 is `FnOnce` and captures
variable 2 by value; closure 1 is `Fn` and captures variable 2 by shared
reference. -/
def ctxW5 : Ctx where
  node_types := fun i => if i = 2 then some .TyBool else none
  expr_adjustments := fun _ => []
  is_method_call := fun _ => false
  pat_binding_modes := fun i => if i = 2 then some (.BindByValue .MutMutable) else none
  qpath_def := fun _ => .Err
  hir_get := fun i => if i = 2 then some (.NodeLocal (.mk 2 0 (.Binding none))) else none
  as_local_node_id := fun i => some i
  local_def_id := fun i => i
  closure_kinds := fun i => if i = 1 then some .Fn else if i = 3 then some .FnOnce else none
  upvar_capture := fun u =>
    if u.closure_expr_id = 1 then .ByRef .ImmBorrow (.ReVar 5) else .ByValue
  rvalue_promotable_to_static := fun _ => none
  rvalue_static_promotion := false
  temporary_scope_map := fun _ => none
  parent_def_id := fun _ => none
  adt_is_univariant := fun _ => false
  variant_fields_len := fun _ => 0
  struct_fields_len := fun _ => 0
  infcx := none

/-- Concrete context witnessing C6: node 3 is flagged promotable and the
promotion feature is on; node 4 has temporary scope 9; node 5 has no scope
map entry. -/
def ctxW6 : Ctx where
  node_types := fun _ => none
  expr_adjustments := fun _ => []
  is_method_call := fun _ => false
  pat_binding_modes := fun _ => none
  qpath_def := fun _ => .Err
  hir_get := fun _ => none
  as_local_node_id := fun i => some i
  local_def_id := fun i => i
  closure_kinds := fun _ => none
  upvar_capture := fun _ => .ByValue
  rvalue_promotable_to_static := fun i => if i = 3 then some true else none
  rvalue_static_promotion := true
  temporary_scope_map := fun i => if i = 4 then some 9 else none
  parent_def_id := fun _ => none
  adt_is_univariant := fun _ => false
  variant_fields_len := fun _ => 0
  struct_fields_len := fun _ => 0
  infcx := none

/-- Concrete context witnessing C7: variant 1 belongs to the
multi-variant enum 0. -/
def ctxW7 : Ctx where
  node_types := fun _ => none
  expr_adjustments := fun _ => []
  is_method_call := fun _ => false
  pat_binding_modes := fun _ => none
  qpath_def := fun _ => .Err
  hir_get := fun _ => none
  as_local_node_id := fun i => some i
  local_def_id := fun i => i
  closure_kinds := fun _ => none
  upvar_capture := fun _ => .ByValue
  rvalue_promotable_to_static := fun _ => none
  rvalue_static_promotion := false
  temporary_scope_map := fun _ => none
  parent_def_id := fun i => if i = 1 then some 0 else none
  adt_is_univariant := fun _ => false
  variant_fields_len := fun _ => 0
  struct_fields_len := fun _ => 0
  infcx := none

/-- Concrete context witnessing C8: node 7 is a literal with the error type,
node 8 a field access over it with type bool, node 6 a by-reference binding
of the non-dereferenceable type bool; every pattern path resolves to the
error definition. -/
def ctxW8 : Ctx where
  node_types := fun i =>
    if i = 7 then some .TyErr else if i = 8 then some .TyBool
    else if i = 6 then some .TyBool else none
  expr_adjustments := fun _ => []
  is_method_call := fun _ => false
  pat_binding_modes := fun i => if i = 6 then some (.BindByReference .MutImmutable) else none
  qpath_def := fun _ => .Err
  hir_get := fun _ => none
  as_local_node_id := fun i => some i
  local_def_id := fun i => i
  closure_kinds := fun _ => none
  upvar_capture := fun _ => .ByValue
  rvalue_promotable_to_static := fun _ => none
  rvalue_static_promotion := false
  temporary_scope_map := fun _ => none
  parent_def_id := fun _ => none
  adt_is_univariant := fun _ => false
  variant_fields_len := fun _ => 0
  struct_fields_len := fun _ => 0
  infcx := none

/-- A context whose live inference session is tainted by errors, witnessing
the missing-type soft failure of C8. -/
def ctxW8t : Ctx :=
  { ctxW8 with infcx := some ⟨fun t => t, true⟩ }

/-- C1 amended: a non-overloaded index wraps the categorized
(adjustment-applied) base in exactly one element-offset `Interior` layer and
inserts no `Deref` of its own; the `Deref` directly beneath the `Interior`
appears exactly when the base's own categorization ends in a deref — in
particular when the base's last recorded adjustment is a non-overloaded
deref of a reference, as for a slice behind a reference — and a fixed-length
in-place array base (whole adjusted base categorization `b`) sits directly
under the `Interior`. -/
theorem index_composition :
    (∀ (ctx : Ctx) (id sp : Nat) (base bidx : Expr) (t : Ty) (b : Cmt),
       ctx.is_method_call id = false →
       expr_ty ctx (.mk id sp (.ExprIndex base bidx)) = .ok t →
       cat_expr ctx base = .ok b →
       cat_expr_unadjusted ctx (.mk id sp (.ExprIndex base bidx)) =
         .ok (.mk id sp (.Interior b (.InteriorElement .Index))
               b.mutbl.inherit t .NoteNone)) ∧
    (∀ (ctx : Ctx) (base : Expr) (prev : List Adjustment) (target : Ty)
       (bc : Cmt) (r : Region) (m : Mutability) (t' : Ty),
       ctx.expr_adjustments base.id = prev ++ [⟨.AdjDeref none, target⟩] →
       cat_expr_helper ctx base prev = .ok bc →
       bc.ty = .TyRef r m t' →
       cat_expr ctx base =
         .ok (.mk base.id base.span
               (.Deref bc (.BorrowedPtr (BorrowKind.from_mutbl m) r))
               (MutabilityCategory.from_borrow_kind (BorrowKind.from_mutbl m))
               t' .NoteNone)) := by
  constructor
  · intro ctx id sp base bidx t b hm ht hb
    rw [cat_expr_unadjusted, ht]
    simp only [Expr.id, Expr.span, hm, hb, Bool.false_eq_true, if_false,
      cat_index, cat_imm_interior]
  · intro ctx base prev target bc r m t' ha hb hty
    unfold cat_expr_helper at hb
    rw [cat_expr, ha]
    simp only [List.reverse_append, List.reverse_cons, List.reverse_nil,
      List.nil_append, List.singleton_append, List.cons_append]
    rw [cat_expr_rev, hb]
    simp only [cat_expr_adjusted_with, cat_deref, hty, Ty.builtin_deref,
      MutabilityCategory.from_pointer_kind, Bool.false_eq_true, if_false]

/-- C1 counterexample: the non-overloaded index `p.f[i]` over the slice
field of a dynamically-sized struct places an `Interior` (field) layer, not
a `Deref` layer, directly beneath the element-offset `Interior`; the base is
a slice, not a fixed-length in-place array. -/
theorem index_without_deref_layer :
    cat_expr ctxC1
        (.mk 20 0 (.ExprIndex (.mk 21 0 (.ExprField (.mk 22 0 .ExprPath) 5))
          (.mk 23 0 .ExprPath))) =
      .ok (.mk 20 0
            (.Interior
              (.mk 21 0
                (.Interior
                  (.mk 22 0
                    (.Deref
                      (.mk 22 0 (.Local 2) .McImmutable
                        (.TyRef (.ReVar 0) .MutImmutable (.TyAdt 7)) .NoteNone)
                      (.BorrowedPtr .ImmBorrow (.ReVar 0)))
                    .McImmutable (.TyAdt 7) .NoteNone)
                  (.InteriorField (.NamedField 5)))
                .McImmutable (.TySlice .TyUint) .NoteNone)
              (.InteriorElement .Index))
            .McImmutable .TyUint .NoteNone) ∧
    index_place_shape
      (.mk 20 0
        (.Interior
          (.mk 21 0
            (.Interior
              (.mk 22 0
                (.Deref
                  (.mk 22 0 (.Local 2) .McImmutable
                    (.TyRef (.ReVar 0) .MutImmutable (.TyAdt 7)) .NoteNone)
                  (.BorrowedPtr .ImmBorrow (.ReVar 0)))
                .McImmutable (.TyAdt 7) .NoteNone)
              (.InteriorField (.NamedField 5)))
            .McImmutable (.TySlice .TyUint) .NoteNone)
          (.InteriorElement .Index))
        .McImmutable .TyUint .NoteNone) = false ∧
    ctxC1.is_method_call 20 = false ∧
    expr_ty_adjusted ctxC1 (.mk 21 0 (.ExprField (.mk 22 0 .ExprPath) 5)) =
      .ok (.TySlice .TyUint) := by
  refine ⟨?_, rfl, rfl, rfl⟩
  simp [cat_expr, cat_expr_rev, cat_expr_unadjusted, cat_expr_adjusted_with,
    cat_def, cat_deref, cat_field, cat_index, cat_imm_interior, expr_ty,
    resolve_type_vars_or_error, resolve_type_vars_if_possible, node_ty,
    Ty.references_error, Ty.is_ty_var, Ty.builtin_deref,
    MutabilityCategory.from_local, MutabilityCategory.from_pointer_kind,
    MutabilityCategory.from_borrow_kind, BorrowKind.from_mutbl,
    MutabilityCategory.inherit, Cmt.ty, Cmt.mutbl, ctxC1, Expr.id, Expr.span,
    Pat.id, Pat.node]

/-- Witness for C1 (amended) at the context of the counterexample: the
non-overloaded index node 20 over the slice field node 21, and the
adjustment-deref of the reference-typed path node 22. -/
theorem index_composition_witness :
    cat_expr_unadjusted ctxC1
        (.mk 20 0 (.ExprIndex (.mk 21 0 (.ExprField (.mk 22 0 .ExprPath) 5))
          (.mk 23 0 .ExprPath))) =
      .ok (.mk 20 0
            (.Interior
              (.mk 21 0
                (.Interior
                  (.mk 22 0
                    (.Deref
                      (.mk 22 0 (.Local 2) .McImmutable
                        (.TyRef (.ReVar 0) .MutImmutable (.TyAdt 7)) .NoteNone)
                      (.BorrowedPtr .ImmBorrow (.ReVar 0)))
                    .McImmutable (.TyAdt 7) .NoteNone)
                  (.InteriorField (.NamedField 5)))
                .McImmutable (.TySlice .TyUint) .NoteNone)
              (.InteriorElement .Index))
            (Cmt.mk 21 0
                (.Interior
                  (.mk 22 0
                    (.Deref
                      (.mk 22 0 (.Local 2) .McImmutable
                        (.TyRef (.ReVar 0) .MutImmutable (.TyAdt 7)) .NoteNone)
                      (.BorrowedPtr .ImmBorrow (.ReVar 0)))
                    .McImmutable (.TyAdt 7) .NoteNone)
                  (.InteriorField (.NamedField 5)))
                .McImmutable (.TySlice .TyUint) .NoteNone).mutbl.inherit
            .TyUint .NoteNone) ∧
    cat_expr ctxC1 (.mk 22 0 .ExprPath) =
      .ok (.mk 22 0
            (.Deref
              (.mk 22 0 (.Local 2) .McImmutable
                (.TyRef (.ReVar 0) .MutImmutable (.TyAdt 7)) .NoteNone)
              (.BorrowedPtr (BorrowKind.from_mutbl .MutImmutable) (.ReVar 0)))
            (MutabilityCategory.from_borrow_kind (BorrowKind.from_mutbl .MutImmutable))
            (.TyAdt 7) .NoteNone) := by
  constructor
  · apply index_composition.1 ctxC1 20 0
      (.mk 21 0 (.ExprField (.mk 22 0 .ExprPath) 5)) (.mk 23 0 .ExprPath)
      .TyUint _ rfl rfl
    simp [cat_expr, cat_expr_rev, cat_expr_unadjusted, cat_expr_adjusted_with,
      cat_def, cat_deref, cat_field, expr_ty,
      resolve_type_vars_or_error, resolve_type_vars_if_possible,
      Ty.references_error, Ty.is_ty_var, Ty.builtin_deref,
      MutabilityCategory.from_local, MutabilityCategory.from_pointer_kind,
      MutabilityCategory.from_borrow_kind, BorrowKind.from_mutbl,
      MutabilityCategory.inherit, Cmt.ty, Cmt.mutbl, ctxC1, Expr.id, Expr.span,
      Pat.id, Pat.node]
  · apply index_composition.2 ctxC1 (.mk 22 0 .ExprPath) [] (.TyAdt 7)
      (.mk 22 0 (.Local 2) .McImmutable
        (.TyRef (.ReVar 0) .MutImmutable (.TyAdt 7)) .NoteNone)
      (.ReVar 0) .MutImmutable (.TyAdt 7) rfl ?_ rfl
    simp [cat_expr_helper, cat_expr_rev, cat_expr_unadjusted, cat_def, expr_ty,
      resolve_type_vars_or_error, resolve_type_vars_if_possible,
      Ty.references_error, Ty.is_ty_var, MutabilityCategory.from_local,
      ctxC1, Expr.id, Expr.span, Pat.id, Pat.node]

/-- C2 amended: a local binding's mutability is `McDeclared` exactly when
its binding mode is by-value mutable; every other binding mode — including
the by-reference modes `ref x` and `ref mut x` — yields `McImmutable`. -/
theorem from_local_mutability
    (ctx : Ctx) (id : Nat) (p : Pat) (sub : Option Pat) (bm : BindingMode)
    (h1 : ctx.hir_get id = some (.NodeLocal p))
    (h2 : p.node = .Binding sub)
    (h3 : ctx.pat_binding_modes p.id = some bm) :
    MutabilityCategory.from_local ctx id =
      .ok (if bm = .BindByValue .MutMutable then .McDeclared else .McImmutable) ∧
    (MutabilityCategory.from_local ctx id = .ok .McDeclared ↔
       bm = .BindByValue .MutMutable) ∧
    (∀ m, bm = .BindByReference m →
       MutabilityCategory.from_local ctx id = .ok .McImmutable) := by
  simp only [MutabilityCategory.from_local, h1, h2, h3]
  refine ⟨by trivial, ?_, ?_⟩
  · by_cases hbm : bm = .BindByValue .MutMutable <;> simp [hbm]
  · intro m hm
    subst hm
    simp

/-- C2 counterexample: a `ref mut` binding yields `McImmutable`, not the
`McDeclared` the claim asserts. -/
theorem ref_mut_binding_is_immutable :
    MutabilityCategory.from_local ctxC2 5 = .ok .McImmutable ∧
    ctxC2.pat_binding_modes 5 = some (.BindByReference .MutMutable) ∧
    MutabilityCategory.McImmutable ≠ MutabilityCategory.McDeclared :=
  ⟨rfl, rfl, by simp⟩

/-- Witness for C2 at the `ref mut` context. -/
theorem from_local_mutability_witness :
    MutabilityCategory.from_local ctxC2 5 =
      .ok (if (BindingMode.BindByReference .MutMutable) = .BindByValue .MutMutable
           then .McDeclared else .McImmutable) ∧
    (MutabilityCategory.from_local ctxC2 5 = .ok .McDeclared ↔
       (BindingMode.BindByReference .MutMutable) = .BindByValue .MutMutable) ∧
    MutabilityCategory.from_local ctxC2 5 = .ok .McImmutable := by
  have h := from_local_mutability ctxC2 5 (.mk 5 0 (.Binding none)) none
    (.BindByReference .MutMutable) rfl rfl rfl
  exact ⟨h.1, h.2.1, h.2.2 .MutMutable rfl⟩

/-- C3 amended: only for `FnOnce` closures does the base `Upvar` node keep
the variable's own mutability and type; for `Fn` and `FnMut` closures the
environment-deref construction rewrites the base `Upvar` node to
`McImmutable` mutability and the error type. -/
theorem upvar_base_mutability_and_type
    (ctx : Ctx) (id sp var fn : Nat) (vm : MutabilityCategory) (vt : Ty)
    (k : ClosureKind)
    (hk : ctx.closure_kinds fn = some k)
    (hc : ctx.upvar_capture ⟨var, fn⟩ = .ByValue)
    (ht : node_ty ctx var = .ok vt)
    (hm : MutabilityCategory.from_local ctx var = .ok vm) :
    cat_upvar ctx id sp var fn =
      .ok (match k with
           | .FnOnce => .mk id sp (.Upvar ⟨⟨var, fn⟩, .FnOnce⟩) vm vt .NoteNone
           | .Fn =>
               .mk id sp
                 (.Deref (.mk id sp (.Upvar ⟨⟨var, fn⟩, .Fn⟩) .McImmutable .TyErr .NoteNone)
                   (.BorrowedPtr .ImmBorrow (.ReFree (ctx.local_def_id fn))))
                 .McImmutable vt (.NoteClosureEnv ⟨var, fn⟩)
           | .FnMut =>
               .mk id sp
                 (.Deref (.mk id sp (.Upvar ⟨⟨var, fn⟩, .FnMut⟩) .McImmutable .TyErr .NoteNone)
                   (.BorrowedPtr .MutBorrow (.ReFree (ctx.local_def_id fn))))
                 (match vm with
                  | .McImmutable => .McImmutable
                  | _ => .McDeclared)
                 vt (.NoteClosureEnv ⟨var, fn⟩)) := by
  cases k <;>
    simp only [cat_upvar, hk, ht, hm, hc, env_deref, Cmt.with_mutbl_ty, Cmt.ty] <;>
    (try (cases vm <;> simp [MutabilityCategory.from_borrow_kind]))

/-- C3 counterexample: for the `Fn` closure, the base `Upvar` node inside
the produced tree carries mutability `McImmutable` and the error type, not
the variable's own `McDeclared` mutability and `bool` type. -/
theorem upvar_base_rewritten_for_fn_closures :
    MutabilityCategory.from_local ctxC3 2 = .ok .McDeclared ∧
    node_ty ctxC3 2 = .ok .TyBool ∧
    cat_upvar ctxC3 10 0 2 1 =
      .ok (.mk 10 0
            (.Deref (.mk 10 0 (.Upvar ⟨⟨2, 1⟩, .Fn⟩) .McImmutable .TyErr .NoteNone)
              (.BorrowedPtr .ImmBorrow (.ReFree 1)))
            .McImmutable .TyBool (.NoteClosureEnv ⟨2, 1⟩)) ∧
    MutabilityCategory.McImmutable ≠ MutabilityCategory.McDeclared ∧
    Ty.TyErr ≠ Ty.TyBool :=
  ⟨rfl, rfl, rfl, by simp, by simp⟩

/-- Witness for C3 (amended) at the `Fn` closure context of the
counterexample. -/
theorem upvar_base_mutability_and_type_witness :
    cat_upvar ctxC3 10 0 2 1 =
      .ok (.mk 10 0
            (.Deref (.mk 10 0 (.Upvar ⟨⟨2, 1⟩, .Fn⟩) .McImmutable .TyErr .NoteNone)
              (.BorrowedPtr .ImmBorrow (.ReFree (ctxC3.local_def_id 1))))
            .McImmutable .TyBool (.NoteClosureEnv ⟨2, 1⟩)) :=
  upvar_base_mutability_and_type ctxC3 10 0 2 1 .McDeclared .TyBool .Fn
    rfl rfl rfl rfl

/-- C4 amended: `Interior`, `Downcast` and `Deref(_, Unique)` inherit the
base's mutability; `Deref(_, BorrowedPtr|Implicit)` built by `cat_deref`
takes its mutability solely from the borrow kind, independent of the base;
`Deref(_, UnsafePtr)` takes the raw pointer's declared mutability; derefs of
shared borrows and raw-immutable pointers are always immutable.  Exception,
forced by the counterexample: the synthetic closure-environment deref of
`env_deref` is immutable whenever the captured variable is immutable, even
though its pointer is a mutable-borrow `BorrowedPtr`. -/
theorem mutability_inheritance_rules :
    (∀ m : MutabilityCategory, MutabilityCategory.from_pointer_kind m .Unique = m.inherit) ∧
    (MutabilityCategory.inherit .McDeclared = .McInherited ∧
     MutabilityCategory.inherit .McInherited = .McInherited ∧
     MutabilityCategory.inherit .McImmutable = .McImmutable) ∧
    (∀ (m m' : MutabilityCategory) (bk : BorrowKind) (r : Region),
       MutabilityCategory.from_pointer_kind m (.BorrowedPtr bk r) =
         MutabilityCategory.from_borrow_kind bk ∧
       MutabilityCategory.from_pointer_kind m (.Implicit bk r) =
         MutabilityCategory.from_borrow_kind bk ∧
       MutabilityCategory.from_pointer_kind m (.BorrowedPtr bk r) =
         MutabilityCategory.from_pointer_kind m' (.BorrowedPtr bk r)) ∧
    (∀ (m : MutabilityCategory) (mu : Mutability),
       MutabilityCategory.from_pointer_kind m (.UnsafePtr mu) =
         MutabilityCategory.from_mutbl mu) ∧
    (∀ (m : MutabilityCategory) (r : Region),
       MutabilityCategory.from_pointer_kind m (.BorrowedPtr .ImmBorrow r) = .McImmutable ∧
       MutabilityCategory.from_pointer_kind m (.Implicit .ImmBorrow r) = .McImmutable ∧
       MutabilityCategory.from_pointer_kind m (.UnsafePtr .MutImmutable) = .McImmutable) ∧
    (∀ (nid nsp : Nat) (base : Cmt) (impl : Bool) (w : Cmt),
       cat_deref nid nsp base impl = .ok w →
       ∃ ptr, w.cat = .Deref base ptr ∧
         w.mutbl = MutabilityCategory.from_pointer_kind base.mutbl ptr) ∧
    (∀ (nid nsp : Nat) (base : Cmt) (t : Ty) (ik : InteriorKind) (fname : Nat),
       (cat_imm_interior nid nsp base t ik).mutbl = base.mutbl.inherit ∧
       (cat_field nid nsp base fname t).mutbl = base.mutbl.inherit ∧
       (cat_tup_field nid nsp base fname t).mutbl = base.mutbl.inherit) ∧
    (∀ (ctx : Ctx) (nid nsp : Nat) (base : Cmt) (vdid base_did : Nat),
       ctx.parent_def_id vdid = some base_did →
       ctx.adt_is_univariant base_did = false →
       cat_downcast_if_needed ctx nid nsp base vdid =
         .ok (.mk nid nsp (.Downcast base vdid) base.mutbl.inherit
                base.ty .NoteNone)) ∧
    (∀ (ctx : Ctx) (id sp : Nat) (uid : UpvarId) (bk : BorrowKind) (c : Cmt),
       (env_deref ctx id sp uid .McImmutable bk c).mutbl = .McImmutable) := by
  refine ⟨?_, ⟨rfl, rfl, rfl⟩, ?_, ?_, ?_, ?_, ?_, ?_, ?_⟩
  · intro m; rfl
  · intro m m' bk r; exact ⟨rfl, rfl, rfl⟩
  · intro m mu; rfl
  · intro m r
    refine ⟨rfl, rfl, rfl⟩
  · intro nid nsp base impl w hw
    unfold cat_deref at hw
    cases hd : base.ty.builtin_deref true with
    | none => rw [hd] at hw; exact absurd hw (by simp)
    | some mt =>
        rw [hd] at hw
        cases hb : base.ty <;> rw [hb] at hw <;> simp at hw <;>
          (try (subst hw; exact ⟨_, rfl, rfl⟩))
  · intro nid nsp base t ik fname
    exact ⟨rfl, rfl, rfl⟩
  · intro ctx nid nsp base vdid base_did hp hu
    simp [cat_downcast_if_needed, hp, hu]
  · intro ctx id sp uid bk c
    simp [env_deref, Cmt.mutbl]

/-- C4 counterexample: categorizing the capture of the immutable variable 2
by the `FnMut` closure 1 produces a place whose root is a deref through a
mutable-borrow `BorrowedPtr` yet whose mutability is `McImmutable`, not the
borrow kind's `McDeclared`. -/
theorem deref_mutability_not_solely_from_borrow_kind :
    cat_upvar ctxC4 10 0 2 1 =
      .ok (.mk 10 0
            (.Deref (.mk 10 0 (.Upvar ⟨⟨2, 1⟩, .FnMut⟩) .McImmutable .TyErr .NoteNone)
              (.BorrowedPtr .MutBorrow (.ReFree 1)))
            .McImmutable .TyBool (.NoteClosureEnv ⟨2, 1⟩)) ∧
    MutabilityCategory.from_borrow_kind .MutBorrow = .McDeclared ∧
    MutabilityCategory.McImmutable ≠ MutabilityCategory.McDeclared := by
  refine ⟨?_, rfl, by simp⟩
  rfl

/-- Witness for C4 at concrete inputs, reusing the `FnMut` capture context;
the dereffed base is a mutable local holding a mutable reference. -/
theorem mutability_inheritance_rules_witness :
    MutabilityCategory.from_pointer_kind .McDeclared .Unique =
      MutabilityCategory.inherit .McDeclared ∧
    MutabilityCategory.from_pointer_kind .McImmutable (.BorrowedPtr .MutBorrow (.ReVar 0)) =
      MutabilityCategory.from_borrow_kind .MutBorrow ∧
    MutabilityCategory.from_pointer_kind .McDeclared (.UnsafePtr .MutMutable) =
      MutabilityCategory.from_mutbl .MutMutable ∧
    MutabilityCategory.from_pointer_kind .McDeclared (.BorrowedPtr .ImmBorrow (.ReVar 0)) =
      .McImmutable ∧
    (∃ ptr,
      (Cmt.mk 3 0
        (.Deref (.mk 1 0 (.Local 2) .McDeclared
            (.TyRef (.ReVar 0) .MutMutable .TyBool) .NoteNone)
          (.BorrowedPtr .MutBorrow (.ReVar 0)))
        .McDeclared .TyBool .NoteNone).cat =
        .Deref (.mk 1 0 (.Local 2) .McDeclared
            (.TyRef (.ReVar 0) .MutMutable .TyBool) .NoteNone) ptr ∧
      (Cmt.mk 3 0
        (.Deref (.mk 1 0 (.Local 2) .McDeclared
            (.TyRef (.ReVar 0) .MutMutable .TyBool) .NoteNone)
          (.BorrowedPtr .MutBorrow (.ReVar 0)))
        .McDeclared .TyBool .NoteNone).mutbl =
        MutabilityCategory.from_pointer_kind
          (Cmt.mk 1 0 (.Local 2) .McDeclared
            (.TyRef (.ReVar 0) .MutMutable .TyBool) .NoteNone).mutbl ptr) ∧
    (cat_imm_interior 0 0
        (.mk 1 0 (.Local 2) .McDeclared .TyBool .NoteNone) .TyBool
        (.InteriorElement .Index)).mutbl =
      (Cmt.mk 1 0 (.Local 2) .McDeclared .TyBool .NoteNone).mutbl.inherit ∧
    cat_downcast_if_needed ctxW4 4 0
        (.mk 1 0 (.Local 2) .McDeclared .TyBool .NoteNone) 1 =
      .ok (.mk 4 0 (.Downcast (.mk 1 0 (.Local 2) .McDeclared .TyBool .NoteNone) 1)
            (Cmt.mk 1 0 (.Local 2) .McDeclared .TyBool .NoteNone).mutbl.inherit
            (Cmt.mk 1 0 (.Local 2) .McDeclared .TyBool .NoteNone).ty .NoteNone) ∧
    (env_deref ctxC4 0 0 ⟨2, 1⟩ .McImmutable .MutBorrow
        (.mk 0 0 (.Upvar ⟨⟨2, 1⟩, .FnMut⟩) .McImmutable .TyBool .NoteNone)).mutbl =
      .McImmutable :=
  ⟨mutability_inheritance_rules.1 .McDeclared,
   (mutability_inheritance_rules.2.2.1 .McImmutable .McImmutable .MutBorrow (.ReVar 0)).1,
   mutability_inheritance_rules.2.2.2.1 .McDeclared .MutMutable,
   (mutability_inheritance_rules.2.2.2.2.1 .McDeclared (.ReVar 0)).1,
   mutability_inheritance_rules.2.2.2.2.2.1 3 0
     (.mk 1 0 (.Local 2) .McDeclared (.TyRef (.ReVar 0) .MutMutable .TyBool) .NoteNone)
     false _ rfl,
   (mutability_inheritance_rules.2.2.2.2.2.2.1 0 0
     (.mk 1 0 (.Local 2) .McDeclared .TyBool .NoteNone) .TyBool
     (.InteriorElement .Index) 0).1,
   mutability_inheritance_rules.2.2.2.2.2.2.2.1 ctxW4 4 0
     (.mk 1 0 (.Local 2) .McDeclared .TyBool .NoteNone) 1 0 rfl rfl,
   mutability_inheritance_rules.2.2.2.2.2.2.2.2 ctxC4 0 0 ⟨2, 1⟩ .MutBorrow
     (.mk 0 0 (.Upvar ⟨⟨2, 1⟩, .FnMut⟩) .McImmutable .TyBool .NoteNone)⟩

/-- C5: a `FnOnce` closure capturing by value yields the bare `Upvar` place
with no wrapping deref; an `Fn` closure capturing by reference yields
exactly two wrapping derefs — the outer tagged `NoteUpvarRef`, the inner
tagged `NoteClosureEnv` — and `upvar()` on the root recovers the place
categorized `Upvar`. -/
theorem closure_capture_roundtrip :
    (∀ (ctx : Ctx) (id sp var fn : Nat) (vm : MutabilityCategory) (vt : Ty),
       ctx.closure_kinds fn = some .FnOnce →
       ctx.upvar_capture ⟨var, fn⟩ = .ByValue →
       node_ty ctx var = .ok vt →
       MutabilityCategory.from_local ctx var = .ok vm →
       cat_upvar ctx id sp var fn =
         .ok (.mk id sp (.Upvar ⟨⟨var, fn⟩, .FnOnce⟩) vm vt .NoteNone)) ∧
    (∀ (ctx : Ctx) (id sp var fn : Nat) (vm : MutabilityCategory) (vt : Ty)
       (bk : BorrowKind) (r : Region),
       ctx.closure_kinds fn = some .Fn →
       ctx.upvar_capture ⟨var, fn⟩ = .ByRef bk r →
       node_ty ctx var = .ok vt →
       MutabilityCategory.from_local ctx var = .ok vm →
       cat_upvar ctx id sp var fn =
         .ok (.mk id sp
               (.Deref
                 (.mk id sp
                   (.Deref (.mk id sp (.Upvar ⟨⟨var, fn⟩, .Fn⟩) .McImmutable .TyErr .NoteNone)
                     (.BorrowedPtr .ImmBorrow (.ReFree (ctx.local_def_id fn))))
                   .McImmutable vt (.NoteClosureEnv ⟨var, fn⟩))
                 (.BorrowedPtr bk r))
               (MutabilityCategory.from_borrow_kind bk) vt (.NoteUpvarRef ⟨var, fn⟩)) ∧
       (Cmt.mk id sp
               (.Deref
                 (.mk id sp
                   (.Deref (.mk id sp (.Upvar ⟨⟨var, fn⟩, .Fn⟩) .McImmutable .TyErr .NoteNone)
                     (.BorrowedPtr .ImmBorrow (.ReFree (ctx.local_def_id fn))))
                   .McImmutable vt (.NoteClosureEnv ⟨var, fn⟩))
                 (.BorrowedPtr bk r))
               (MutabilityCategory.from_borrow_kind bk) vt
               (.NoteUpvarRef ⟨var, fn⟩)).upvar =
         some (.mk id sp (.Upvar ⟨⟨var, fn⟩, .Fn⟩) .McImmutable .TyErr .NoteNone)) := by
  constructor
  · intro ctx id sp var fn vm vt hk hc ht hm
    simp only [cat_upvar, hk, ht, hm, hc]
  · intro ctx id sp var fn vm vt bk r hk hc ht hm
    constructor
    · simp only [cat_upvar, hk, ht, hm, hc, env_deref, Cmt.with_mutbl_ty, Cmt.ty]
      cases vm <;> simp [MutabilityCategory.from_borrow_kind]
    · simp [Cmt.upvar, Cmt.note, Cmt.cat]

/-- Witness for C5 at concrete inputs. -/
theorem closure_capture_roundtrip_witness :
    cat_upvar ctxW5 10 0 2 3 =
      .ok (.mk 10 0 (.Upvar ⟨⟨2, 3⟩, .FnOnce⟩) .McDeclared .TyBool .NoteNone) ∧
    cat_upvar ctxW5 10 0 2 1 =
      .ok (.mk 10 0
            (.Deref
              (.mk 10 0
                (.Deref (.mk 10 0 (.Upvar ⟨⟨2, 1⟩, .Fn⟩) .McImmutable .TyErr .NoteNone)
                  (.BorrowedPtr .ImmBorrow (.ReFree (ctxW5.local_def_id 1))))
                .McImmutable .TyBool (.NoteClosureEnv ⟨2, 1⟩))
              (.BorrowedPtr .ImmBorrow (.ReVar 5)))
            (MutabilityCategory.from_borrow_kind .ImmBorrow) .TyBool
            (.NoteUpvarRef ⟨2, 1⟩)) ∧
    (Cmt.mk 10 0
            (.Deref
              (.mk 10 0
                (.Deref (.mk 10 0 (.Upvar ⟨⟨2, 1⟩, .Fn⟩) .McImmutable .TyErr .NoteNone)
                  (.BorrowedPtr .ImmBorrow (.ReFree (ctxW5.local_def_id 1))))
                .McImmutable .TyBool (.NoteClosureEnv ⟨2, 1⟩))
              (.BorrowedPtr .ImmBorrow (.ReVar 5)))
            (MutabilityCategory.from_borrow_kind .ImmBorrow) .TyBool
            (.NoteUpvarRef ⟨2, 1⟩)).upvar =
      some (.mk 10 0 (.Upvar ⟨⟨2, 1⟩, .Fn⟩) .McImmutable .TyErr .NoteNone) := by
  have h1 := closure_capture_roundtrip.1 ctxW5 10 0 2 3 .McDeclared .TyBool rfl rfl rfl rfl
  have h2 := closure_capture_roundtrip.2 ctxW5 10 0 2 1 .McDeclared .TyBool
    .ImmBorrow (.ReVar 5) rfl rfl rfl rfl
  exact ⟨h1, h2.1, h2.2⟩

/-- C6: a zero-length fixed array rvalue is promoted to the static region
unconditionally; any other type is promoted exactly when the prior analysis
flagged the node and the global promotion feature is on; an unpromoted
rvalue gets its temporary scope, which is itself static when the scope map
has no entry for the node. -/
theorem rvalue_promotion_and_static_region :
    (∀ (ctx : Ctx) (id sp : Nat) (t : Ty),
       (cat_rvalue_node ctx id sp (.TyArray t 0)).cat = .Rvalue .ReStatic) ∧
    (∀ (ctx : Ctx) (id sp : Nat) (t : Ty),
       (ctx.rvalue_promotable_to_static id).getD false = true →
       ctx.rvalue_static_promotion = true →
       (cat_rvalue_node ctx id sp t).cat = .Rvalue .ReStatic) ∧
    (∀ (ctx : Ctx) (id sp : Nat) (t : Ty),
       (∀ u : Ty, t ≠ .TyArray u 0) →
       ((ctx.rvalue_promotable_to_static id).getD false && ctx.rvalue_static_promotion) = false →
       (cat_rvalue_node ctx id sp t).cat = .Rvalue (temporary_scope ctx id)) ∧
    (∀ (ctx : Ctx) (id : Nat), ctx.temporary_scope_map id = none →
       temporary_scope ctx id = .ReStatic) := by
  refine ⟨?_, ?_, ?_, ?_⟩
  · intro ctx id sp t
    simp [cat_rvalue_node, cat_rvalue, Cmt.cat]
  · intro ctx id sp t h1 h2
    cases t
    case TyArray u n =>
      cases n <;> simp [cat_rvalue_node, cat_rvalue, Cmt.cat, h1, h2]
    all_goals simp [cat_rvalue_node, cat_rvalue, Cmt.cat, h1, h2]
  · intro ctx id sp t hne hflag
    cases t
    case TyArray u n =>
      cases n
      · exact absurd rfl (hne u)
      · simp [cat_rvalue_node, cat_rvalue, Cmt.cat, hflag]
    all_goals simp [cat_rvalue_node, cat_rvalue, Cmt.cat, hflag]
  · intro ctx id h
    simp [temporary_scope, h]

/-- Witness for C6 at concrete inputs. -/
theorem rvalue_promotion_and_static_region_witness :
    (cat_rvalue_node ctxW6 0 0 (.TyArray .TyBool 0)).cat = .Rvalue .ReStatic ∧
    (cat_rvalue_node ctxW6 3 0 .TyBool).cat = .Rvalue .ReStatic ∧
    (cat_rvalue_node ctxW6 4 0 .TyBool).cat = .Rvalue (temporary_scope ctxW6 4) ∧
    temporary_scope ctxW6 5 = .ReStatic :=
  ⟨rvalue_promotion_and_static_region.1 ctxW6 0 0 .TyBool,
   rvalue_promotion_and_static_region.2.1 ctxW6 3 0 .TyBool rfl rfl,
   rvalue_promotion_and_static_region.2.2.1 ctxW6 4 0 .TyBool
     (fun _ h => Ty.noConfusion h) rfl,
   rvalue_promotion_and_static_region.2.2.2 ctxW6 5 rfl⟩

/-- C7: wrapping a freely aliasable base in an `Interior` (field, element)
or `Downcast` layer leaves `freely_aliasable` unchanged, reason included. -/
theorem aliasability_invariant_under_projection
    (ctx : Ctx) (nid nsp : Nat) (b : Cmt) (r : AliasableReason) (t : Ty)
    (ik : InteriorKind) (fname fidx vdid base_did : Nat)
    (h : b.freely_aliasable = .FreelyAliasable r)
    (hp : ctx.parent_def_id vdid = some base_did)
    (hu : ctx.adt_is_univariant base_did = false) :
    (cat_imm_interior nid nsp b t ik).freely_aliasable = .FreelyAliasable r ∧
    (cat_field nid nsp b fname t).freely_aliasable = .FreelyAliasable r ∧
    (cat_tup_field nid nsp b fidx t).freely_aliasable = .FreelyAliasable r ∧
    ∃ w, cat_downcast_if_needed ctx nid nsp b vdid = .ok w ∧
         w.freely_aliasable = .FreelyAliasable r := by
  refine ⟨?_, ?_, ?_, ?_⟩
  · simpa [cat_imm_interior, Cmt.freely_aliasable] using h
  · simpa [cat_field, Cmt.freely_aliasable] using h
  · simpa [cat_tup_field, Cmt.freely_aliasable] using h
  · refine ⟨.mk nid nsp (.Downcast b vdid) b.mutbl.inherit b.ty .NoteNone, ?_, ?_⟩
    · simp [cat_downcast_if_needed, hp, hu]
    · simpa [Cmt.freely_aliasable] using h

/-- Witness for C7 at a concrete freely aliasable base (a static item). -/
theorem aliasability_invariant_under_projection_witness :
    (cat_imm_interior 0 0 (.mk 9 0 .StaticItem .McImmutable .TyBool .NoteNone)
        .TyBool (.InteriorElement .Index)).freely_aliasable =
      .FreelyAliasable .AliasableStatic ∧
    (cat_field 0 0 (.mk 9 0 .StaticItem .McImmutable .TyBool .NoteNone)
        0 .TyBool).freely_aliasable = .FreelyAliasable .AliasableStatic ∧
    (cat_tup_field 0 0 (.mk 9 0 .StaticItem .McImmutable .TyBool .NoteNone)
        0 .TyBool).freely_aliasable = .FreelyAliasable .AliasableStatic ∧
    ∃ w, cat_downcast_if_needed ctxW7 0 0
           (.mk 9 0 .StaticItem .McImmutable .TyBool .NoteNone) 1 = .ok w ∧
         w.freely_aliasable = .FreelyAliasable .AliasableStatic :=
  aliasability_invariant_under_projection ctxW7 0 0
    (.mk 9 0 .StaticItem .McImmutable .TyBool .NoteNone)
    .AliasableStatic .TyBool (.InteriorElement .Index) 0 0 1 0 rfl rfl rfl

/-- C8 amended: the soft failures (`Err(())`, no new diagnostic) are: an
explicit dereference of a non-dereferenceable type; indexing a non-indexable
type while categorizing a slice pattern; a pattern whose resolved definition
is the error sentinel (tuple-struct or struct form); and additionally the
type-resolution failures — a node type that is or contains the error type,
an unresolved type variable, a missing type under tainted inference — and a
by-reference binding of a non-dereferenceable type in `pat_ty`.  The `Err`
propagates through the intermediate calls (shown for a binding's
sub-pattern and for a field access's base). -/
theorem soft_failure_conditions :
    (∀ (nid nsp : Nat) (base : Cmt) (impl : Bool),
       base.ty.builtin_deref true = none →
       cat_deref nid nsp base impl = .error .SoftErr) ∧
    (∀ (ctx : Ctx) (cmt : Cmt) (pid psp : Nat) (before : List Pat)
       (slice : Option Pat) (after : List Pat),
       cmt.ty.builtin_index = none →
       cat_pattern_ ctx cmt (.mk pid psp (.Slice before slice after)) =
         .error .SoftErr) ∧
    (∀ (ctx : Ctx) (cmt : Cmt) (pid psp : Nat) (subpats : List Pat)
       (ddpos : Option Nat),
       ctx.qpath_def pid = .Err →
       cat_pattern_ ctx cmt (.mk pid psp (.TupleStruct subpats ddpos)) =
         .error .SoftErr) ∧
    (∀ (ctx : Ctx) (cmt : Cmt) (pid psp : Nat) (field_pats : List FieldPat),
       ctx.qpath_def pid = .Err →
       cat_pattern_ ctx cmt (.mk pid psp (.Struct field_pats)) =
         .error .SoftErr) ∧
    (∀ (ctx : Ctx) (t : Ty),
       (resolve_type_vars_if_possible ctx t).references_error = true →
       resolve_type_vars_or_error ctx (some t) = .error .SoftErr) ∧
    (∀ (ctx : Ctx) (t : Ty),
       (resolve_type_vars_if_possible ctx t).is_ty_var = true →
       resolve_type_vars_or_error ctx (some t) = .error .SoftErr) ∧
    (∀ ctx : Ctx, is_tainted_by_errors ctx = true →
       resolve_type_vars_or_error ctx none = .error .SoftErr) ∧
    (∀ (ctx : Ctx) (p : Pat) (mu : Mutability) (t : Ty),
       (∃ sub, p.node = .Binding sub) →
       ctx.pat_binding_modes p.id = some (.BindByReference mu) →
       node_ty ctx p.id = .ok t →
       t.builtin_deref false = none →
       pat_ty ctx p = .error .SoftErr) ∧
    (∀ (ctx : Ctx) (cmt : Cmt) (sub : Pat) (pid psp : Nat),
       cat_pattern_ ctx cmt sub = .error .SoftErr →
       cat_pattern_ ctx cmt (.mk pid psp (.Binding (some sub))) =
         .error .SoftErr) ∧
    (∀ (ctx : Ctx) (id sp fname : Nat) (base : Expr) (t : Ty),
       expr_ty ctx (.mk id sp (.ExprField base fname)) = .ok t →
       cat_expr ctx base = .error .SoftErr →
       cat_expr_unadjusted ctx (.mk id sp (.ExprField base fname)) =
         .error .SoftErr) := by
  refine ⟨?_, ?_, ?_, ?_, ?_, ?_, ?_, ?_, ?_, ?_⟩
  · intro nid nsp base impl h
    unfold cat_deref
    rw [h]
  · intro ctx cmt pid psp before slice after h
    rw [cat_pattern_, h]
    simp [visit_result]
  · intro ctx cmt pid psp subpats ddpos h
    rw [cat_pattern_]
    simp [h, visit_result]
  · intro ctx cmt pid psp field_pats h
    rw [cat_pattern_]
    simp [h, visit_result]
  · intro ctx t h
    simp [resolve_type_vars_or_error, h]
  · intro ctx t h
    simp [resolve_type_vars_or_error, h]
  · intro ctx h
    simp [resolve_type_vars_or_error, h]
  · intro ctx p mu t hsub hbm hnt hder
    obtain ⟨sub, hsub⟩ := hsub
    simp [pat_ty, hsub, hbm, hnt, hder]
  · intro ctx cmt sub pid psp h
    rw [cat_pattern_]
    simp [h, visit_result]
  · intro ctx id sp fname base t ht hb
    rw [cat_expr_unadjusted, ht]
    simp [hb]

/-- C8 counterexample: categorizing a plain literal expression whose
recorded type is the error sentinel returns the soft failure, a situation
outside the claim's list of exactly three (it is not a dereference, not a
slice-pattern indexing, and not a pattern with an error definition). -/
theorem soft_failure_on_error_type :
    cat_expr ctxC8 (.mk 7 0 .ExprLit) = .error .SoftErr ∧
    ctxC8.node_types 7 = some .TyErr := by
  refine ⟨?_, rfl⟩
  simp [cat_expr, cat_expr_rev, cat_expr_unadjusted, expr_ty, ctxC8,
    resolve_type_vars_or_error, resolve_type_vars_if_possible,
    Ty.references_error, Expr.id]

/-- Witness for C8 at concrete inputs. -/
theorem soft_failure_conditions_witness :
    cat_deref 0 0 (.mk 0 0 (.Local 3) .McImmutable .TyBool .NoteNone) false =
      .error .SoftErr ∧
    cat_pattern_ ctxW8 (.mk 0 0 (.Local 3) .McImmutable .TyBool .NoteNone)
        (.mk 1 0 (.Slice [] none [])) = .error .SoftErr ∧
    cat_pattern_ ctxW8 (.mk 0 0 (.Local 3) .McImmutable .TyBool .NoteNone)
        (.mk 9 0 (.TupleStruct [] none)) = .error .SoftErr ∧
    cat_pattern_ ctxW8 (.mk 0 0 (.Local 3) .McImmutable .TyBool .NoteNone)
        (.mk 9 0 (.Struct [])) = .error .SoftErr ∧
    resolve_type_vars_or_error ctxW8 (some .TyErr) = .error .SoftErr ∧
    resolve_type_vars_or_error ctxW8 (some (.TyInfer 0)) = .error .SoftErr ∧
    resolve_type_vars_or_error ctxW8t none = .error .SoftErr ∧
    pat_ty ctxW8 (.mk 6 0 (.Binding none)) = .error .SoftErr ∧
    cat_pattern_ ctxW8 (.mk 0 0 (.Local 3) .McImmutable .TyBool .NoteNone)
        (.mk 2 0 (.Binding (some (.mk 1 0 (.Slice [] none []))))) = .error .SoftErr ∧
    cat_expr_unadjusted ctxW8 (.mk 8 0 (.ExprField (.mk 7 0 .ExprLit) 0)) =
      .error .SoftErr := by
  refine ⟨soft_failure_conditions.1 0 0 _ false rfl,
    soft_failure_conditions.2.1 ctxW8 _ 1 0 [] none [] rfl,
    soft_failure_conditions.2.2.1 ctxW8 _ 9 0 [] none rfl,
    soft_failure_conditions.2.2.2.1 ctxW8 _ 9 0 [] rfl,
    soft_failure_conditions.2.2.2.2.1 ctxW8 .TyErr rfl,
    soft_failure_conditions.2.2.2.2.2.1 ctxW8 (.TyInfer 0) rfl,
    soft_failure_conditions.2.2.2.2.2.2.1 ctxW8t rfl,
    soft_failure_conditions.2.2.2.2.2.2.2.1 ctxW8 (.mk 6 0 (.Binding none))
      .MutImmutable .TyBool ⟨none, rfl⟩ rfl rfl rfl,
    soft_failure_conditions.2.2.2.2.2.2.2.2.1 ctxW8 _ (.mk 1 0 (.Slice [] none [])) 2 0
      (soft_failure_conditions.2.1 ctxW8 _ 1 0 [] none [] rfl),
    soft_failure_conditions.2.2.2.2.2.2.2.2.2 ctxW8 8 0 0 (.mk 7 0 .ExprLit) .TyBool rfl ?_⟩
  simp [cat_expr, cat_expr_rev, cat_expr_unadjusted, expr_ty, ctxW8,
    resolve_type_vars_or_error, resolve_type_vars_if_possible,
    Ty.references_error, Expr.id]

/-- C9: for every place, `guarantor` is idempotent:
`p.guarantor.guarantor = p.guarantor`. -/
theorem guarantor_idempotent (c : Cmt) : c.guarantor.guarantor = c.guarantor := by
  induction c using Cmt.guarantor.induct <;> simp [Cmt.guarantor, *]

/-- C10: every place the categorizer builds with category `Rvalue` — all of
which are created by `cat_rvalue`, also when reached through
`cat_rvalue_node` — has mutability `McDeclared`. -/
theorem rvalue_place_declared_mutable (ctx : Ctx) (id span : Nat) (r : Region) (t : Ty) :
    (cat_rvalue id span r t).mutbl = .McDeclared ∧
    (cat_rvalue_node ctx id span t).mutbl = .McDeclared ∧
    (cat_rvalue id span r t).cat = .Rvalue r := by
  refine ⟨rfl, ?_, rfl⟩
  simp only [cat_rvalue_node, cat_rvalue, Cmt.mutbl]

end MemCat
